import Mathlib

/-!
Verification of the speech-dispatch and speaker-matching pipeline of
`simpleVosk.py` (class `Speech`).

Modelling conventions, written next to each definition they concern:
* numpy float vectors are modelled as `List ℝ`;
* a numpy NaN produced by dividing by a zero norm is modelled as `none`
  in an `Option ℝ` (every float comparison against NaN is false, which is
  exactly how `none` is treated in the loop below);
* the `ValueError` numpy raises from `np.dot` on vectors of different
  lengths is modelled as the `.error` case of `Except Unit`;
* a parsed Vosk JSON payload is modelled as a record of optional fields
  (a `none` field means the JSON key is absent);
* invoking the user callback is modelled by returning the argument triple
  the callback would receive (`none` = no invocation for this result).
-/

open scoped Classical

/-- `np.dot` on two 1-D arrays of the same length (sum of pairwise
products); on unequal lengths the Python call raises, which is handled at
the call site (`cosineDist`). -/
def dotL (x y : List ℝ) : ℝ := (List.zipWith (fun a b => a * b) x y).sum

/-- Sum of squares of the entries, so that `np.linalg.norm x = √(sumSq x)`. -/
def sumSq (x : List ℝ) : ℝ := (x.map (fun a => a * a)).sum

/-- `np.linalg.norm` of a 1-D array: the Euclidean norm. -/
noncomputable def normL (x : List ℝ) : ℝ := Real.sqrt (sumSq x)

/-- The real value `1 - dot(x,y)/‖x‖/‖y‖` computed by `Speech.__cosineDist`
when both norms are nonzero. -/
noncomputable def cosineDistVal (x y : List ℝ) : ℝ :=
  1 - dotL x y / normL x / normL y

/-- `Speech.__cosineDist`: `1 - np.dot(nx, ny) / np.linalg.norm(nx) / np.linalg.norm(ny)`.
`.error ()` models the `ValueError` numpy raises when the two arrays have
different lengths; `.ok none` models the NaN produced by the division when
either norm is `0` (both divisions are float divisions, `0/0 = NaN`, and
NaN propagates through the subtraction). -/
noncomputable def cosineDist (x y : List ℝ) : Except Unit (Option ℝ) :=
  if x.length = y.length then
    if normL x = 0 ∨ normL y = 0 then .ok none
    else .ok (some (cosineDistVal x y))
  else .error ()

/-- The argument triple handed to the user callback:
`self.__callback(s, speaker, isFull)`. -/
structure Invocation where
  text : String
  speaker : Option String
  isFull : Bool
deriving DecidableEq, Repr

instance {ε α : Type} [DecidableEq ε] [DecidableEq α] : DecidableEq (Except ε α) := fun a b =>
  match a, b with
  | .ok a, .ok b =>
    if h : a = b then isTrue (by rw [h]) else isFalse (fun hc => h (Except.ok.inj hc))
  | .error e, .error f =>
    if h : e = f then isTrue (by rw [h]) else isFalse (fun hc => h (Except.error.inj hc))
  | .ok _, .error _ => isFalse Except.noConfusion
  | .error _, .ok _ => isFalse Except.noConfusion

/-- Configuration state of a `Speech` object (the `self.__*` fields that the
dispatch and matching code reads).  The speaker registry `speakSigs` is a
Python dict, modelled as an insertion-ordered association list. -/
structure Config where
  partMode : Bool
  spkModel : Option String
  speakSigs : List (String × List ℝ)
  maxSpeakDist : ℝ
  filterText : Bool
  textFilters : List String
  printUnknownSigs : Bool
  verbose : Bool

/-- A parsed Vosk result payload (`json.loads` output): `text` is the
`"text"` key of a final result, `partText` the `"partial"` key of a partial
result, `spk` the optional `"spk"` x-vector; `none` means the key is absent. -/
structure Payload where
  text : Option String
  partText : Option String
  spk : Option (List ℝ)

/-- `Speech.__init__` with explicit arguments: every field is copied from
the corresponding parameter, and the text-filter list is always initialised
to `["huh","by","but"]`. -/
def mkConfig (partMode : Bool) (spkModel : Option String)
    (speakSigs : List (String × List ℝ)) (maxSpeakDist : ℝ)
    (filterText : Bool) (printUnknownSigs : Bool) (verbose : Bool) : Config :=
  { partMode := partMode
    spkModel := spkModel
    speakSigs := speakSigs
    maxSpeakDist := maxSpeakDist
    filterText := filterText
    textFilters := ["huh", "by", "but"]
    printUnknownSigs := printUnknownSigs
    verbose := verbose }

/-- `Speech.__init__` with every defaulted parameter left at its default:
`partial=False`, `speakModel=None`, `signatures={}`, `maxSpeakThresh=0.54`,
`filterText=True`, `printUnknownSigs=True`, `verbose=False`. -/
noncomputable def initConfig : Config :=
  mkConfig false none [] 0.54 true true false

/-- `Speech.addFilterWords`: `self.__textFilters += words`. -/
def addFilterWords (cfg : Config) (words : List String) : Config :=
  { cfg with textFilters := cfg.textFilters ++ words }

/-- The `for person in self.__speakSigs` loop of `Speech.__speakerCheck`,
threading the running state `(minDist, bestFit)`.  A NaN distance
(`.ok none`) fails the comparison `dist < minDist` and leaves the state
unchanged; a raised `ValueError` aborts the whole call. -/
noncomputable def speakerLoop (emb : List ℝ) :
    List (String × List ℝ) → ℝ → Option String → Except Unit (ℝ × Option String)
  | [], minDist, bestFit => .ok (minDist, bestFit)
  | (person, sig) :: rest, minDist, bestFit =>
    match cosineDist sig emb with
    | .error e => .error e
    | .ok none => speakerLoop emb rest minDist bestFit
    | .ok (some dist) =>
      if dist < minDist then speakerLoop emb rest dist (some person)
      else speakerLoop emb rest minDist bestFit

/-- `Speech.__speakerCheck`: returns `None` when the payload has no
`"spk"` key; otherwise runs the loop from the seed
`minDist = self.__maxSpeakDist * 2`, `bestFit = None`, and finally returns
`None` when `minDist > self.__maxSpeakDist` and `bestFit` otherwise. -/
noncomputable def speakerCheck (cfg : Config) (load : Payload) :
    Except Unit (Option String) :=
  match load.spk with
  | none => .ok none
  | some emb =>
    match speakerLoop emb cfg.speakSigs (cfg.maxSpeakDist * 2) none with
    | .error e => .error e
    | .ok (minDist, bestFit) =>
      if minDist > cfg.maxSpeakDist then .ok none else .ok bestFit

/-- `Speech.__checkCallback`: the result dispatcher.  Returns the
`Invocation` the user callback receives, `none` when the result is
discarded, and `.error` when the speaker check raises. -/
noncomputable def checkCallback (cfg : Config) (load : Payload) :
    Except Unit (Option Invocation) :=
  match load.text with
  | some s =>
    if 0 < s.length then
      if cfg.filterText ∧ s ∈ cfg.textFilters then .ok none
      else
        match cfg.spkModel with
        | some _ =>
          match speakerCheck cfg load with
          | .error e => .error e
          | .ok speaker => .ok (some ⟨s, speaker, true⟩)
        | none => .ok (some ⟨s, none, true⟩)
    else .ok none
  | none =>
    if cfg.partMode then
      match load.partText with
      | some s =>
        if 0 < s.length then
          if cfg.filterText ∧ s ∈ cfg.textFilters then .ok none
          else .ok (some ⟨s, none, false⟩)
        else .ok none
      | none => .ok none
    else .ok none

/-- Specification-side list of `(name, cosine distance)` pairs over the
registry, in registry order (the distances the spec's matcher contract
talks about). -/
noncomputable def distPairs (sigs : List (String × List ℝ)) (emb : List ℝ) :
    List (String × ℝ) :=
  sigs.map (fun ps => (ps.1, cosineDistVal ps.2 emb))

/-- Specification-side first-seen minimum of a list of named distances:
ties are broken in favour of the earlier entry. -/
noncomputable def argminFirst : List (String × ℝ) → Option (String × ℝ)
  | [] => none
  | nd :: rest =>
    match argminFirst rest with
    | none => some nd
    | some md => if nd.2 ≤ md.2 then some nd else some md

/-- Modelled from the spec's words for claim C1 (the matcher contract):
compute every registered cosine distance, take the first-seen minimum, and
return its name exactly when that minimum does not exceed the threshold. -/
noncomputable def claimMatch (sigs : List (String × List ℝ)) (emb : List ℝ)
    (thr : ℝ) : Option String :=
  match argminFirst (distPairs sigs emb) with
  | none => none
  | some nd => if nd.2 ≤ thr then some nd.1 else none

/-- Closed form of the state `speakerLoop` reaches from seed `(m, b)` when
every distance in `pairs` is well defined: the seed if no distance improves
on `m`, and otherwise the first-seen minimum with its name. -/
noncomputable def loopResult (pairs : List (String × ℝ)) (m : ℝ)
    (b : Option String) : ℝ × Option String :=
  match argminFirst pairs with
  | none => (m, b)
  | some nd => if nd.2 < m then (nd.2, some nd.1) else (m, b)

lemma sumSq_nil : sumSq ([] : List ℝ) = 0 := rfl

lemma sumSq_cons (a : ℝ) (x : List ℝ) : sumSq (a :: x) = a * a + sumSq x := by
  simp [sumSq]

lemma dotL_nil (y : List ℝ) : dotL [] y = 0 := rfl

lemma dotL_nil_right (x : List ℝ) : dotL x [] = 0 := by
  cases x <;> rfl

lemma dotL_cons (a b : ℝ) (x y : List ℝ) :
    dotL (a :: x) (b :: y) = a * b + dotL x y := by
  simp [dotL]

lemma sumSq_nonneg (x : List ℝ) : 0 ≤ sumSq x := by
  induction x with
  | nil => simp [sumSq_nil]
  | cons a x ih =>
    have := mul_self_nonneg a
    rw [sumSq_cons]; linarith

lemma normL_nonneg (x : List ℝ) : 0 ≤ normL x := Real.sqrt_nonneg _

lemma normL_eq_zero_iff (x : List ℝ) : normL x = 0 ↔ sumSq x = 0 := by
  unfold normL
  rw [Real.sqrt_eq_zero (sumSq_nonneg x)]

/-- Cauchy–Schwarz for the list dot product (by induction on both lists). -/
lemma dotL_mul_self_le : ∀ x y : List ℝ, dotL x y * dotL x y ≤ sumSq x * sumSq y
  | [], y => by simp [dotL_nil, sumSq_nil, mul_nonneg (sumSq_nonneg [])]
  | a :: x, [] => by simp [dotL_nil_right, sumSq_nil]
  | a :: x, b :: y => by
    have ih := dotL_mul_self_le x y
    have hX := sumSq_nonneg x
    have hY := sumSq_nonneg y
    rw [dotL_cons, sumSq_cons, sumSq_cons]
    rcases eq_or_lt_of_le hY with hY0 | hY0
    · -- sumSq y = 0, hence the inner product of the tails is 0
      have hD2 : dotL x y * dotL x y ≤ 0 := by
        calc dotL x y * dotL x y ≤ sumSq x * sumSq y := ih
        _ = 0 := by rw [← hY0, mul_zero]
      have hD : dotL x y = 0 :=
        mul_self_eq_zero.mp (le_antisymm hD2 (mul_self_nonneg _))
      rw [hD, ← hY0]
      have h1 : 0 ≤ sumSq x * (b * b) := mul_nonneg hX (mul_self_nonneg b)
      nlinarith [mul_self_nonneg (a * b)]
    · nlinarith [mul_self_nonneg (a * sumSq y - b * dotL x y),
        mul_nonneg (add_nonneg (mul_self_nonneg b) hY0.le)
          (sub_nonneg.mpr ih), hY0]

lemma dotL_le_normL_mul (x y : List ℝ) : dotL x y ≤ normL x * normL y := by
  calc dotL x y ≤ |dotL x y| := le_abs_self _
  _ = Real.sqrt (dotL x y * dotL x y) := by
      rw [Real.sqrt_mul_self_eq_abs]
  _ ≤ Real.sqrt (sumSq x * sumSq y) := Real.sqrt_le_sqrt (dotL_mul_self_le x y)
  _ = normL x * normL y := by
      unfold normL
      rw [Real.sqrt_mul (sumSq_nonneg x)]

lemma cosineDistVal_nonneg {x y : List ℝ} (hx : normL x ≠ 0)
    (hy : normL y ≠ 0) : 0 ≤ cosineDistVal x y := by
  have hx0 : 0 < normL x := lt_of_le_of_ne (normL_nonneg x) (Ne.symm hx)
  have hy0 : 0 < normL y := lt_of_le_of_ne (normL_nonneg y) (Ne.symm hy)
  unfold cosineDistVal
  rw [div_div, sub_nonneg]
  exact (div_le_one (mul_pos hx0 hy0)).mpr (dotL_le_normL_mul x y)

lemma cosineDist_eq_some {x y : List ℝ} (hlen : x.length = y.length)
    (hx : normL x ≠ 0) (hy : normL y ≠ 0) :
    cosineDist x y = .ok (some (cosineDistVal x y)) := by
  unfold cosineDist
  rw [if_pos hlen, if_neg (by push_neg; exact ⟨hx, hy⟩)]

lemma cosineDist_eq_none {x y : List ℝ} (hlen : x.length = y.length)
    (h : normL x = 0 ∨ normL y = 0) :
    cosineDist x y = .ok none := by
  unfold cosineDist
  rw [if_pos hlen, if_pos h]

lemma argminFirst_eq_none {l : List (String × ℝ)} :
    argminFirst l = none ↔ l = [] := by
  cases l with
  | nil => simp [argminFirst]
  | cons nd rest =>
    simp only [argminFirst]
    constructor
    · intro h
      rcases hr : argminFirst rest with _ | md <;> rw [hr] at h
      · simp at h
      · by_cases hc : nd.2 ≤ md.2 <;> simp [hc] at h
    · intro h; exact absurd h (List.cons_ne_nil _ _)

lemma argminFirst_mem : ∀ {l : List (String × ℝ)} {nd : String × ℝ},
    argminFirst l = some nd → nd ∈ l := by
  intro l
  induction l with
  | nil => intro nd h; simp [argminFirst] at h
  | cons hd rest ih =>
    intro nd h
    simp only [argminFirst] at h
    rcases hr : argminFirst rest with _ | md <;> rw [hr] at h
    · simp at h; simp [h]
    · by_cases hc : hd.2 ≤ md.2 <;> simp [hc] at h
      · simp [h]
      · exact List.mem_cons_of_mem _ (h ▸ ih hr)

lemma speakerLoop_stay (emb : List ℝ) :
    ∀ (sigs : List (String × List ℝ)) (m : ℝ) (b : Option String),
    (∀ p ∈ sigs, cosineDist p.2 emb = .ok none ∨
      ∃ d, cosineDist p.2 emb = .ok (some d) ∧ m ≤ d) →
    speakerLoop emb sigs m b = .ok (m, b) := by
  intro sigs
  induction sigs with
  | nil => intro m b _; rfl
  | cons head rest ih =>
    intro m b h
    obtain ⟨person, sig⟩ := head
    have hrest : ∀ p ∈ rest, cosineDist p.2 emb = .ok none ∨
        ∃ d, cosineDist p.2 emb = .ok (some d) ∧ m ≤ d :=
      fun p hp => h p (List.mem_cons_of_mem _ hp)
    rcases h ⟨person, sig⟩ (List.mem_cons_self _ _) with hc | ⟨d, hc, hd⟩
    · simp only [speakerLoop, hc]
      exact ih m b hrest
    · simp only [speakerLoop, hc]
      rw [if_neg (not_lt.mpr hd)]
      exact ih m b hrest

lemma speakerLoop_eq_loopResult (emb : List ℝ) (hemb : normL emb ≠ 0) :
    ∀ (sigs : List (String × List ℝ)),
    (∀ p ∈ sigs, (p.2 : List ℝ).length = emb.length) →
    (∀ p ∈ sigs, normL p.2 ≠ 0) →
    ∀ (m : ℝ) (b : Option String),
    speakerLoop emb sigs m b = .ok (loopResult (distPairs sigs emb) m b) := by
  intro sigs
  induction sigs with
  | nil => intro _ _ m b; rfl
  | cons head rest ih =>
    intro hlen hnz m b
    obtain ⟨person, sig⟩ := head
    have hlen' : ∀ p ∈ rest, (p.2 : List ℝ).length = emb.length :=
      fun p hp => hlen p (List.mem_cons_of_mem _ hp)
    have hnz' : ∀ p ∈ rest, normL p.2 ≠ 0 :=
      fun p hp => hnz p (List.mem_cons_of_mem _ hp)
    have hd : cosineDist sig emb = .ok (some (cosineDistVal sig emb)) :=
      cosineDist_eq_some (hlen ⟨person, sig⟩ (List.mem_cons_self _ _))
        (hnz ⟨person, sig⟩ (List.mem_cons_self _ _)) hemb
    have hpairs : distPairs (⟨person, sig⟩ :: rest) emb
        = (person, cosineDistVal sig emb) :: distPairs rest emb := by
      simp [distPairs]
    simp only [speakerLoop, hd, hpairs]
    set d := cosineDistVal sig emb with hdd
    rcases hrest : argminFirst (distPairs rest emb) with _ | ⟨n2, d2⟩
    · -- no entries behind the head
      have hnil : distPairs rest emb = [] := argminFirst_eq_none.mp hrest
      by_cases hc : d < m
      · rw [if_pos hc, ih hlen' hnz' d (some person)]
        simp [loopResult, argminFirst, hrest, hc]
      · rw [if_neg hc, ih hlen' hnz' m b]
        simp [loopResult, argminFirst, hrest, hc]
    · by_cases hcmp : d ≤ d2
      · -- the head is the first-seen minimum
        by_cases hc : d < m
        · rw [if_pos hc, ih hlen' hnz' d (some person)]
          have : ¬ d2 < d := not_lt.mpr hcmp
          simp [loopResult, argminFirst, hrest, hcmp, hc, this]
        · rw [if_neg hc, ih hlen' hnz' m b]
          have : ¬ d2 < m := by
            intro h2
            exact hc (lt_of_le_of_lt hcmp h2)
          simp [loopResult, argminFirst, hrest, hcmp, hc, this]
      · -- the minimum lives in the tail
        by_cases hc : d < m
        · rw [if_pos hc, ih hlen' hnz' d (some person)]
          have h2d : d2 < d := not_le.mp hcmp
          have h2m : d2 < m := lt_trans h2d hc
          simp [loopResult, argminFirst, hrest, hcmp, h2d, h2m]
        · rw [if_neg hc, ih hlen' hnz' m b]
          simp [loopResult, argminFirst, hrest, hcmp]

/-- Claim C1, amended: over a registry whose references all have the
embedding's length and nonzero norm, and a nonzero-norm embedding, the
matcher agrees with the spec's contract (first-seen minimum cosine
distance, returned iff it does not exceed `maxSpeakerDistance`) whenever
`maxSpeakerDistance` is positive; when `maxSpeakerDistance ≤ 0` the matcher
returns none unconditionally (so a distance-zero exact match at threshold
zero is NOT returned, contrary to the claim as stated). -/
theorem speakerCheck_matches_claim (cfg : Config) (load : Payload) (emb : List ℝ)
    (hspk : load.spk = some emb)
    (hlen : ∀ p ∈ cfg.speakSigs, (p.2 : List ℝ).length = emb.length)
    (hnz : ∀ p ∈ cfg.speakSigs, normL p.2 ≠ 0)
    (hemb : normL emb ≠ 0) :
    (0 < cfg.maxSpeakDist →
      speakerCheck cfg load = .ok (claimMatch cfg.speakSigs emb cfg.maxSpeakDist)) ∧
    (cfg.maxSpeakDist ≤ 0 → speakerCheck cfg load = .ok none) := by
  have hloop := speakerLoop_eq_loopResult emb hemb cfg.speakSigs hlen hnz
    (cfg.maxSpeakDist * 2) none
  rcases hres : argminFirst (distPairs cfg.speakSigs emb) with _ | ⟨n, dmin⟩
  · have hlr : loopResult (distPairs cfg.speakSigs emb) (cfg.maxSpeakDist * 2) none
        = (cfg.maxSpeakDist * 2, none) := by simp [loopResult, hres]
    constructor
    · intro hthr
      simp only [speakerCheck, hspk, hloop, hlr, claimMatch, hres]
      rw [if_pos (by linarith : cfg.maxSpeakDist * 2 > cfg.maxSpeakDist)]
    · intro hthr
      simp only [speakerCheck, hspk, hloop, hlr]
      by_cases h : cfg.maxSpeakDist * 2 > cfg.maxSpeakDist
      · rw [if_pos h]
      · rw [if_neg h]
  · have hmem := argminFirst_mem hres
    have hd0 : 0 ≤ dmin := by
      rw [distPairs, List.mem_map] at hmem
      obtain ⟨a, ha, heq⟩ := hmem
      have h2 : cosineDistVal a.2 emb = dmin := congrArg Prod.snd heq
      rw [← h2]
      exact cosineDistVal_nonneg (hnz a ha) hemb
    constructor
    · intro hthr
      by_cases hc : dmin < cfg.maxSpeakDist * 2
      · have hlr : loopResult (distPairs cfg.speakSigs emb) (cfg.maxSpeakDist * 2) none
            = (dmin, some n) := by simp [loopResult, hres, hc]
        simp only [speakerCheck, hspk, hloop, hlr, claimMatch, hres]
        by_cases hd : dmin > cfg.maxSpeakDist
        · rw [if_pos hd, if_neg (not_le.mpr hd)]
        · rw [if_neg hd, if_pos (not_lt.mp hd)]
      · have hge : cfg.maxSpeakDist * 2 ≤ dmin := not_lt.mp hc
        have hlr : loopResult (distPairs cfg.speakSigs emb) (cfg.maxSpeakDist * 2) none
            = (cfg.maxSpeakDist * 2, none) := by simp [loopResult, hres, hc]
        simp only [speakerCheck, hspk, hloop, hlr, claimMatch, hres]
        rw [if_pos (by linarith : cfg.maxSpeakDist * 2 > cfg.maxSpeakDist),
          if_neg (by push_neg; linarith : ¬ dmin ≤ cfg.maxSpeakDist)]
    · intro hthr
      have hc : ¬ dmin < cfg.maxSpeakDist * 2 := by
        intro h; linarith
      have hlr : loopResult (distPairs cfg.speakSigs emb) (cfg.maxSpeakDist * 2) none
          = (cfg.maxSpeakDist * 2, none) := by simp [loopResult, hres, hc]
      simp only [speakerCheck, hspk, hloop, hlr]
      rw [if_neg (by push_neg; linarith : ¬ cfg.maxSpeakDist * 2 > cfg.maxSpeakDist)]

/-- Claim C2, amended: at threshold `maxSpeakerDistance = 0` the matcher
returns none for EVERY embedding, including one whose direction exactly
matches a registered reference (the loop seeds its running minimum at
`0 * 2 = 0` and only updates on a strictly smaller distance, and cosine
distances are never negative, so no entry is ever selected). -/
theorem speakerCheck_zero_threshold (cfg : Config) (load : Payload) (emb : List ℝ)
    (hspk : load.spk = some emb)
    (hlen : ∀ p ∈ cfg.speakSigs, (p.2 : List ℝ).length = emb.length)
    (hthr : cfg.maxSpeakDist = 0) :
    speakerCheck cfg load = .ok none := by
  have hstay : speakerLoop emb cfg.speakSigs (cfg.maxSpeakDist * 2) none
      = .ok (cfg.maxSpeakDist * 2, none) := by
    apply speakerLoop_stay
    intro p hp
    by_cases hz : normL p.2 = 0 ∨ normL emb = 0
    · exact Or.inl (cosineDist_eq_none (hlen p hp) hz)
    · push_neg at hz
      refine Or.inr ⟨cosineDistVal p.2 emb,
        cosineDist_eq_some (hlen p hp) hz.1 hz.2, ?_⟩
      rw [hthr, zero_mul]
      exact cosineDistVal_nonneg hz.1 hz.2
  simp only [speakerCheck, hspk, hstay]
  rw [hthr, zero_mul, if_neg (lt_irrefl (0 : ℝ))]

/-- Claim C3, amended: the matcher returns none, raising no exception, when
the payload carries no embedding, when the registry is empty, or when the
embedding has zero norm and the same length as every registered reference.
(An empty embedding against a non-empty registry of nonzero length instead
raises, see the counterexample.) -/
theorem speakerCheck_degenerate (cfg : Config) (load : Payload) :
    (load.spk = none → speakerCheck cfg load = .ok none) ∧
    (cfg.speakSigs = [] → speakerCheck cfg load = .ok none) ∧
    (∀ emb, load.spk = some emb → normL emb = 0 →
      (∀ p ∈ cfg.speakSigs, (p.2 : List ℝ).length = emb.length) →
      speakerCheck cfg load = .ok none) := by
  refine ⟨?_, ?_, ?_⟩
  · intro h; simp [speakerCheck, h]
  · intro h
    cases hspk : load.spk with
    | none => simp [speakerCheck, hspk]
    | some emb =>
      have hnil : speakerLoop emb cfg.speakSigs (cfg.maxSpeakDist * 2) none
          = .ok (cfg.maxSpeakDist * 2, none) := by rw [h]; rfl
      simp only [speakerCheck, hspk, hnil]
      rw [ite_self]
  · intro emb hspk hz hlen
    have hstay : speakerLoop emb cfg.speakSigs (cfg.maxSpeakDist * 2) none
        = .ok (cfg.maxSpeakDist * 2, none) :=
      speakerLoop_stay emb cfg.speakSigs _ none
        (fun p hp => Or.inl (cosineDist_eq_none (hlen p hp) (Or.inr hz)))
    simp only [speakerCheck, hspk, hstay]
    rw [ite_self]

theorem speakerCheck_matches_claim_witness :
    speakerCheck
      { partMode := false, spkModel := some "spk-model",
        speakSigs := [("Alice", [1, 0, 0]), ("Bob", [0, 1, 0])],
        maxSpeakDist := 1/2, filterText := true,
        textFilters := ["huh", "by", "but"],
        printUnknownSigs := true, verbose := false }
      { text := some "hello world", partText := none, spk := some [1, 0, 0] }
      = .ok (some "Alice") := by
  have hA : normL [(1:ℝ), 0, 0] = 1 := by
    rw [normL, show sumSq [(1:ℝ), 0, 0] = 1 by norm_num [sumSq], Real.sqrt_one]
  have hB : normL [(0:ℝ), 1, 0] = 1 := by
    rw [normL, show sumSq [(0:ℝ), 1, 0] = 1 by norm_num [sumSq], Real.sqrt_one]
  have hdA : cosineDistVal [(1:ℝ), 0, 0] [1, 0, 0] = 0 := by
    rw [cosineDistVal, hA, show dotL [(1:ℝ), 0, 0] [1, 0, 0] = 1 by
      norm_num [dotL]]
    norm_num
  have hdB : cosineDistVal [(0:ℝ), 1, 0] [1, 0, 0] = 1 := by
    rw [cosineDistVal, hA, hB, show dotL [(0:ℝ), 1, 0] [1, 0, 0] = 0 by
      norm_num [dotL]]
    norm_num
  refine ((speakerCheck_matches_claim _ _ [1, 0, 0] rfl ?_ ?_ ?_).1 ?_).trans ?_
  · intro p hp; fin_cases hp <;> rfl
  · intro p hp; fin_cases hp
    · show normL [(1:ℝ), 0, 0] ≠ 0
      rw [hA]; norm_num
    · show normL [(0:ℝ), 1, 0] ≠ 0
      rw [hB]; norm_num
  · rw [hA]; norm_num
  · show (0:ℝ) < 1/2
    norm_num
  · norm_num [claimMatch, distPairs, argminFirst, hdA, hdB]

theorem speakerCheck_matches_claim_cex :
    claimMatch [("Alice", [(1:ℝ)])] [1] 0 = some "Alice" ∧
    speakerCheck
      { partMode := false, spkModel := some "spk-model",
        speakSigs := [("Alice", [1])], maxSpeakDist := 0, filterText := true,
        textFilters := ["huh", "by", "but"], printUnknownSigs := true,
        verbose := false }
      { text := some "hi", partText := none, spk := some [1] } = .ok none := by
  have h1 : normL [(1:ℝ)] = 1 := by
    rw [normL, show sumSq [(1:ℝ)] = 1 by norm_num [sumSq], Real.sqrt_one]
  have hdv : cosineDistVal [(1:ℝ)] [1] = 0 := by
    rw [cosineDistVal, h1, show dotL [(1:ℝ)] [1] = 1 by norm_num [dotL]]
    norm_num
  have hcd : cosineDist [(1:ℝ)] [1] = .ok (some 0) := by
    rw [cosineDist_eq_some rfl (by rw [h1]; norm_num) (by rw [h1]; norm_num), hdv]
  constructor
  · norm_num [claimMatch, distPairs, argminFirst, hdv]
  · have hstay : speakerLoop [(1:ℝ)] [("Alice", [1])] ((0:ℝ) * 2) none
        = .ok ((0:ℝ) * 2, none) := by
      apply speakerLoop_stay
      intro p hp
      fin_cases hp
      exact Or.inr ⟨0, hcd, by norm_num⟩
    simp only [speakerCheck, hstay]
    rw [ite_self]

theorem speakerCheck_zero_threshold_witness :
    speakerCheck
      { partMode := false, spkModel := some "spk-model",
        speakSigs := [("Bob", [3, 4])], maxSpeakDist := 0, filterText := true,
        textFilters := ["huh", "by", "but"], printUnknownSigs := true,
        verbose := false }
      { text := none, partText := none, spk := some [5, 12] } = .ok none :=
  speakerCheck_zero_threshold _ _ [5, 12] rfl
    (by intro p hp; fin_cases hp; rfl) rfl

theorem speakerCheck_zero_threshold_cex :
    cosineDistVal [(3:ℝ), 4] [3, 4] = 0 ∧
    speakerCheck
      { partMode := false, spkModel := some "spk-model",
        speakSigs := [("Bob", [3, 4])], maxSpeakDist := 0, filterText := true,
        textFilters := ["huh", "by", "but"], printUnknownSigs := true,
        verbose := false }
      { text := none, partText := none, spk := some [3, 4] } = .ok none := by
  have h5 : normL [(3:ℝ), 4] = 5 := by
    rw [normL, show sumSq [(3:ℝ), 4] = 25 by norm_num [sumSq],
      show (25:ℝ) = 5 ^ 2 by norm_num, Real.sqrt_sq (by norm_num : (0:ℝ) ≤ 5)]
  have hdv : cosineDistVal [(3:ℝ), 4] [3, 4] = 0 := by
    rw [cosineDistVal, h5, show dotL [(3:ℝ), 4] [3, 4] = 25 by norm_num [dotL]]
    norm_num
  have hcd : cosineDist [(3:ℝ), 4] [3, 4] = .ok (some 0) := by
    rw [cosineDist_eq_some rfl (by rw [h5]; norm_num) (by rw [h5]; norm_num), hdv]
  refine ⟨hdv, ?_⟩
  have hstay : speakerLoop [(3:ℝ), 4] [("Bob", [3, 4])] ((0:ℝ) * 2) none
      = .ok ((0:ℝ) * 2, none) := by
    apply speakerLoop_stay
    intro p hp
    fin_cases hp
    exact Or.inr ⟨0, hcd, by norm_num⟩
  simp only [speakerCheck, hstay]
  rw [ite_self]

theorem speakerCheck_degenerate_witness :
    speakerCheck
      { partMode := false, spkModel := some "spk-model",
        speakSigs := [("Eve", [1, 2])], maxSpeakDist := 1/2, filterText := true,
        textFilters := ["huh", "by", "but"], printUnknownSigs := true,
        verbose := false }
      { text := some "x", partText := none, spk := none } = .ok none ∧
    speakerCheck
      { partMode := false, spkModel := some "spk-model", speakSigs := [],
        maxSpeakDist := 1/2, filterText := true,
        textFilters := ["huh", "by", "but"], printUnknownSigs := true,
        verbose := false }
      { text := some "x", partText := none, spk := some [7, 8] } = .ok none ∧
    speakerCheck
      { partMode := false, spkModel := some "spk-model",
        speakSigs := [("Eve", [1, 2])], maxSpeakDist := 1/2, filterText := true,
        textFilters := ["huh", "by", "but"], printUnknownSigs := true,
        verbose := false }
      { text := some "x", partText := none, spk := some [0, 0] } = .ok none := by
  refine ⟨(speakerCheck_degenerate _ _).1 rfl, (speakerCheck_degenerate _ _).2.1 rfl, ?_⟩
  refine (speakerCheck_degenerate _ _).2.2 [0, 0] rfl ?_ ?_
  · rw [normL, show sumSq [(0:ℝ), 0] = 0 by norm_num [sumSq], Real.sqrt_zero]
  · intro p hp; fin_cases hp; rfl

theorem speakerCheck_empty_embedding_raises :
    speakerCheck
      { partMode := false, spkModel := some "spk-model",
        speakSigs := [("Alice", [1])], maxSpeakDist := 1/2, filterText := true,
        textFilters := ["huh", "by", "but"], printUnknownSigs := true,
        verbose := false }
      { text := some "hi", partText := none, spk := some [] } = .error () ∧
    speakerCheck
      { partMode := false, spkModel := some "spk-model",
        speakSigs := [("Alice", [1])], maxSpeakDist := 1/2, filterText := true,
        textFilters := ["huh", "by", "but"], printUnknownSigs := true,
        verbose := false }
      { text := some "hi", partText := none, spk := some [] } ≠ .ok none := by
  have herr : cosineDist [(1:ℝ)] [] = .error () := by
    rw [cosineDist, if_neg (by norm_num : ¬ ([(1:ℝ)].length = ([] : List ℝ).length))]
  constructor
  · simp only [speakerCheck, speakerLoop, herr]
  · simp only [speakerCheck, speakerLoop, herr]
    intro h
    exact Except.noConfusion h

lemma string_length_pos (s : String) : 0 < s.length ↔ s ≠ "" := by
  cases s with
  | mk data =>
    cases data with
    | nil => simp [String.length]
    | cons c cs => simp [String.length, String.ext_iff]

lemma speakerCheck_partMode_irrel (cfg : Config) (b : Bool) (load : Payload) :
    speakerCheck { cfg with partMode := b } load = speakerCheck cfg load := rfl

/-- Claim C4: for a final result (`"text"` key present) with text `s`: empty
text is discarded; with `filterText` on and `s` in the filter list the
result is discarded; otherwise the callback is invoked exactly once with
`isFinal = true`, the speaker resolved through `speakerCheck` when a
speaker model is configured and `none` otherwise. -/
theorem checkCallback_final_dispatch (cfg : Config) (load : Payload) (s : String)
    (h : load.text = some s) :
    (s = "" → checkCallback cfg load = .ok none) ∧
    (cfg.filterText = true → s ∈ cfg.textFilters →
      checkCallback cfg load = .ok none) ∧
    (s ≠ "" → ¬(cfg.filterText = true ∧ s ∈ cfg.textFilters) →
      checkCallback cfg load =
        match cfg.spkModel with
        | some _ => (speakerCheck cfg load).map (fun spk => some ⟨s, spk, true⟩)
        | none => .ok (some ⟨s, none, true⟩)) := by
  refine ⟨?_, ?_, ?_⟩
  · intro hs
    subst hs
    simp [checkCallback, h]
  · intro hft hmem
    by_cases hs : s = ""
    · subst hs; simp [checkCallback, h]
    · have hpos : 0 < s.length := (string_length_pos s).mpr hs
      simp only [checkCallback, h]
      rw [if_pos hpos, if_pos ⟨hft, hmem⟩]
  · intro hs hnf
    have hpos : 0 < s.length := (string_length_pos s).mpr hs
    simp only [checkCallback, h]
    rw [if_pos hpos, if_neg hnf]
    cases hsm : cfg.spkModel with
    | none => rfl
    | some m =>
      cases hsc : speakerCheck cfg load with
      | error e => rfl
      | ok spk => rfl

theorem checkCallback_final_dispatch_witness :
    checkCallback
      { partMode := false, spkModel := none, speakSigs := [],
        maxSpeakDist := 1/2, filterText := true,
        textFilters := ["huh", "by", "but"], printUnknownSigs := true,
        verbose := false }
      { text := some "turn on the lights", partText := none, spk := none }
      = .ok (some ⟨"turn on the lights", none, true⟩) :=
  (checkCallback_final_dispatch _ _ "turn on the lights" rfl).2.2
    (by decide) (by decide)

/-- Claim C5: with a partial payload that passes the emptiness and filter
checks, the callback fires iff `partialMode` is enabled; and flipping the
flag never changes what a final (or partial-free) payload produces. -/
theorem checkCallback_partMode_control (cfg : Config) (load : Payload)
    (s : String) (ht : load.text = none) (hp : load.partText = some s)
    (hs : s ≠ "") (hf : ¬(cfg.filterText = true ∧ s ∈ cfg.textFilters)) :
    (checkCallback cfg load = .ok (some ⟨s, none, false⟩) ↔
      cfg.partMode = true) ∧
    (cfg.partMode = false → checkCallback cfg load = .ok none) ∧
    (∀ (cfg' : Config) (load' : Payload) (b₁ b₂ : Bool),
      load'.partText = none ∨ load'.text ≠ none →
      checkCallback { cfg' with partMode := b₁ } load'
        = checkCallback { cfg' with partMode := b₂ } load') := by
  have hpos : 0 < s.length := (string_length_pos s).mpr hs
  refine ⟨?_, ?_, ?_⟩
  · cases hpm : cfg.partMode with
    | true =>
      simp only [checkCallback, ht, hp]
      rw [if_pos hpm, if_pos hpos, if_neg hf]
      simp
    | false =>
      simp only [checkCallback, ht, hp]
      rw [if_neg (by simp [hpm] : ¬ cfg.partMode = true)]
      simp
  · intro hpm
    simp only [checkCallback, ht]
    rw [if_neg (by simp [hpm] : ¬ cfg.partMode = true)]
  · intro cfg' load' b₁ b₂ hcase
    rcases hT : load'.text with _ | s₂
    · have hpt : load'.partText = none := by
        rcases hcase with hpt | hne
        · exact hpt
        · exact absurd hT hne
      simp only [checkCallback, hT, hpt]
      cases b₁ <;> cases b₂ <;> simp
    · simp only [checkCallback, hT]
      rfl

theorem checkCallback_partMode_control_witness :
    checkCallback
      { partMode := true, spkModel := none, speakSigs := [],
        maxSpeakDist := 1/2, filterText := true,
        textFilters := ["huh", "by", "but"], printUnknownSigs := true,
        verbose := false }
      { text := none, partText := some "turn on", spk := none }
      = .ok (some ⟨"turn on", none, false⟩) ∧
    checkCallback
      { partMode := false, spkModel := none, speakSigs := [],
        maxSpeakDist := 1/2, filterText := true,
        textFilters := ["huh", "by", "but"], printUnknownSigs := true,
        verbose := false }
      { text := none, partText := some "turn on", spk := none } = .ok none := by
  constructor
  · exact (checkCallback_partMode_control _ _ "turn on" rfl rfl (by decide)
      (by decide)).1.mpr rfl
  · exact (checkCallback_partMode_control _ _ "turn on" rfl rfl (by decide)
      (by decide)).2.1 rfl

/-- Claim C6, amended: when `filterText` is enabled, no callback invocation
(final or partial) ever carries a text that is in the filter list.  (With
`filterText` disabled the filter list is ignored — see the counterexample.) -/
theorem checkCallback_filtered_never_dispatched (cfg : Config) (load : Payload)
    (t : String) (inv : Invocation) (hft : cfg.filterText = true)
    (hmem : t ∈ cfg.textFilters)
    (h : checkCallback cfg load = .ok (some inv)) : inv.text ≠ t := by
  intro he
  subst he
  rcases hT : load.text with _ | s
  · simp only [checkCallback, hT] at h
    rcases hpm : cfg.partMode with _ | _ <;> simp [hpm] at h
    rcases hP : load.partText with _ | s <;> simp [hP] at h
    split_ifs at h with h1 h2
    · exact Option.noConfusion (Except.ok.inj h)
    · have h3 := Option.some.inj (Except.ok.inj h)
      exact h2 ⟨hft, by rw [← h3] at hmem; exact hmem⟩
    · exact Option.noConfusion (Except.ok.inj h)
  · simp only [checkCallback, hT] at h
    split_ifs at h with h1 h2
    · exact Option.noConfusion (Except.ok.inj h)
    · rcases hsm : cfg.spkModel with _ | m <;> rw [hsm] at h
      · have h3 := Option.some.inj (Except.ok.inj h)
        exact h2 ⟨hft, by rw [← h3] at hmem; exact hmem⟩
      · rcases hsc : speakerCheck cfg load with _ | spk <;> rw [hsc] at h
        · exact Except.noConfusion h
        · have h3 := Option.some.inj (Except.ok.inj h)
          exact h2 ⟨hft, by rw [← h3] at hmem; exact hmem⟩
    · exact Option.noConfusion (Except.ok.inj h)

theorem checkCallback_filtered_never_dispatched_witness :
    checkCallback
      { partMode := false, spkModel := none, speakSigs := [],
        maxSpeakDist := 1/2, filterText := true,
        textFilters := ["huh", "by", "but"], printUnknownSigs := true,
        verbose := false }
      { text := some "lights on", partText := none, spk := none }
      = .ok (some ⟨"lights on", none, true⟩) ∧
    (⟨"lights on", none, true⟩ : Invocation).text ≠ "huh" := by
  have hdisp : checkCallback
      { partMode := false, spkModel := none, speakSigs := [],
        maxSpeakDist := 1/2, filterText := true,
        textFilters := ["huh", "by", "but"], printUnknownSigs := true,
        verbose := false }
      { text := some "lights on", partText := none, spk := none }
      = .ok (some ⟨"lights on", none, true⟩) := by decide
  exact ⟨hdisp, checkCallback_filtered_never_dispatched _ _ "huh"
    ⟨"lights on", none, true⟩ rfl (by decide) hdisp⟩

theorem checkCallback_filter_disabled_cex :
    ("huh" : String) ∈ (["huh", "by", "but"] : List String) ∧
    checkCallback
      { partMode := false, spkModel := none, speakSigs := [],
        maxSpeakDist := 1/2, filterText := false,
        textFilters := ["huh", "by", "but"], printUnknownSigs := true,
        verbose := false }
      { text := some "huh", partText := none, spk := none }
      = .ok (some ⟨"huh", none, true⟩) := by
  exact ⟨by decide, by decide⟩

/-- Claim C7: `addFilterWords` appends to the filter list, and filtering is
by exact string equality: after adding `"echo"`, a final `"echo"` is
suppressed while `"echo "` (trailing space) is dispatched. -/
theorem addFilterWords_exact_match :
    (∀ (cfg : Config) (ws : List String),
      (addFilterWords cfg ws).textFilters = cfg.textFilters ++ ws) ∧
    checkCallback (addFilterWords initConfig ["echo"])
      { text := some "echo", partText := none, spk := none } = .ok none ∧
    checkCallback (addFilterWords initConfig ["echo"])
      { text := some "echo ", partText := none, spk := none }
      = .ok (some ⟨"echo ", none, true⟩) := by
  refine ⟨fun cfg ws => rfl, ?_, ?_⟩
  · show checkCallback
      (addFilterWords (mkConfig false none [] 0.54 true true false) ["echo"])
      { text := some "echo", partText := none, spk := none } = .ok none
    decide
  · show checkCallback
      (addFilterWords (mkConfig false none [] 0.54 true true false) ["echo"])
      { text := some "echo ", partText := none, spk := none }
      = .ok (some ⟨"echo ", none, true⟩)
    decide

/-- Claim C8: a dispatched partial result always carries `speaker = none`
and `isFinal = false`; the partial branch never consults the speaker model
or registry and never raises. -/
theorem checkCallback_nonfinal_no_speaker (cfg : Config) (load : Payload)
    (ht : load.text = none) :
    (∀ inv, checkCallback cfg load = .ok (some inv) →
      inv.speaker = none ∧ inv.isFull = false) ∧
    (∀ (sm : Option String) (sigs : List (String × List ℝ)),
      checkCallback { cfg with spkModel := sm, speakSigs := sigs } load
        = checkCallback cfg load) ∧
    checkCallback cfg load ≠ .error () := by
  refine ⟨?_, ?_, ?_⟩
  · intro inv h
    simp only [checkCallback, ht] at h
    rcases hpm : cfg.partMode with _ | _ <;> simp [hpm] at h
    rcases hP : load.partText with _ | s <;> simp [hP] at h
    split_ifs at h with h1 h2
    · exact Option.noConfusion (Except.ok.inj h)
    · have h3 := Option.some.inj (Except.ok.inj h)
      rw [← h3]
      exact ⟨rfl, rfl⟩
    · exact Option.noConfusion (Except.ok.inj h)
  · intro sm sigs
    simp only [checkCallback, ht]
  · intro h
    simp only [checkCallback, ht] at h
    rcases hpm : cfg.partMode with _ | _ <;> simp [hpm] at h
    rcases hP : load.partText with _ | s <;> simp [hP] at h
    split_ifs at h

theorem checkCallback_nonfinal_no_speaker_witness :
    (⟨"partly done", none, false⟩ : Invocation).speaker = none ∧
    (⟨"partly done", none, false⟩ : Invocation).isFull = false := by
  refine (checkCallback_nonfinal_no_speaker
    { partMode := true, spkModel := some "spk-model",
      speakSigs := [("Zoe", [2, 3])], maxSpeakDist := 1/2, filterText := true,
      textFilters := ["huh", "by", "but"], printUnknownSigs := true,
      verbose := false }
    { text := none, partText := some "partly done", spk := none } rfl).1
    ⟨"partly done", none, false⟩ (by decide)

/-- Claim C9: the matcher's result is a pure function of the registry, the
threshold and the embedding: any two configurations and payloads that agree
on those three (whatever their other fields: verbosity, print flags, text
fields, filters) produce identical results. -/
theorem speakerCheck_deterministic (c₁ c₂ : Config) (l₁ l₂ : Payload)
    (hs : c₁.speakSigs = c₂.speakSigs) (hm : c₁.maxSpeakDist = c₂.maxSpeakDist)
    (hl : l₁.spk = l₂.spk) :
    speakerCheck c₁ l₁ = speakerCheck c₂ l₂ := by
  simp only [speakerCheck, hs, hm, hl]

theorem speakerCheck_deterministic_witness :
    speakerCheck
      { partMode := false, spkModel := some "spk-model",
        speakSigs := [("Zoe", [2, 3])], maxSpeakDist := 1/2, filterText := true,
        textFilters := ["huh", "by", "but"], printUnknownSigs := true,
        verbose := true }
      { text := some "alpha", partText := none, spk := some [2, 3] }
    = speakerCheck
      { partMode := true, spkModel := some "other-model",
        speakSigs := [("Zoe", [2, 3])], maxSpeakDist := 1/2, filterText := false,
        textFilters := [], printUnknownSigs := false, verbose := false }
      { text := some "beta", partText := some "b", spk := some [2, 3] } :=
  speakerCheck_deterministic _ _ _ _ rfl rfl rfl

/-- Claim C10: every constructed session starts with the filter list
`["huh","by","but"]`; the default configuration has `filterText` enabled,
so with no user configuration a final result reading exactly "huh", "by"
or "but" is suppressed. -/
theorem initConfig_filter_defaults :
    (∀ (pm : Bool) (sm : Option String) (sigs : List (String × List ℝ))
      (md : ℝ) (ft pu vb : Bool),
      (mkConfig pm sm sigs md ft pu vb).textFilters = ["huh", "by", "but"]) ∧
    initConfig.filterText = true ∧
    (∀ (load : Payload) (s : String), load.text = some s →
      s ∈ (["huh", "by", "but"] : List String) →
      checkCallback initConfig load = .ok none) := by
  refine ⟨fun _ _ _ _ _ _ _ => rfl, rfl, ?_⟩
  intro load s hT hmem
  simp only [checkCallback, hT]
  by_cases hpos : 0 < s.length
  · rw [if_pos hpos, if_pos ⟨rfl, hmem⟩]
  · rw [if_neg hpos]

theorem initConfig_filter_defaults_witness :
    checkCallback initConfig
      { text := some "huh", partText := none, spk := none } = .ok none :=
  (initConfig_filter_defaults).2.2
    { text := some "huh", partText := none, spk := none } "huh" rfl (by decide)
